import Mathlib

/-!
Verification development for the routing core of a small overlay-network node
(packet schema and canonicalization, shared node state, LSR/DVR routing
services, forwarding engine).

Embedding conventions:
* Python dictionaries are insertion-ordered association lists
  (`List (String × α)`); CPython dicts preserve insertion order and key
  assignment replaces in place, which `dset` mirrors.
* Python floats are exact fractions `PyFloat` (integer numerator and positive
  denominator, no normalization); `==`, `<`, `<=`, `+`, `-` on floats are the
  cross-multiplied comparisons and exact fraction arithmetic.  All costs in the
  program are exact small decimals, so no rounding behavior is lost.
* `math.inf` (used only inside Dijkstra) is `Option PyFloat` with `none` = ∞.
* Fallible validation returns `Option`.
-/

set_option autoImplicit false

/-- First-match lookup in an association list (Python `dict.get` / `d[k]`;
Python dict keys are unique, so the first match is the match). -/
def dget {α : Type} : List (String × α) → String → Option α
  | [], _ => none
  | (k, v) :: rest, key => if k = key then some v else dget rest key

/-- Lookup with a default (Python `dict.get(k, default)`). -/
def dgetD {α : Type} (m : List (String × α)) (key : String) (d : α) : α :=
  (dget m key).getD d

/-- Python `d[k] = v`: replace the value in place when the key is present
(keeping its position, as CPython dicts do), else append. -/
def dset {α : Type} : List (String × α) → String → α → List (String × α)
  | [], key, v => [(key, v)]
  | (k, w) :: rest, key, v =>
      if k = key then (k, v) :: rest else (k, w) :: dset rest key v

/-- Python `d.setdefault(k, v)`: insert only when the key is absent. -/
def dsetdefault {α : Type} (m : List (String × α)) (key : String) (v : α) :
    List (String × α) :=
  match dget m key with
  | some _ => m
  | none => m ++ [(key, v)]

/-- The keys of an association list, in insertion order (Python `d.keys()`). -/
def dkeys {α : Type} (m : List (String × α)) : List String :=
  m.map Prod.fst

/-- Python `xs[-n:]`: the last `n` elements (all of them when fewer). -/
def takeLast {α : Type} (n : Nat) (xs : List α) : List α :=
  xs.drop (xs.length - n)

/-- A Python float, embedded as an exact fraction (numerator, denominator).
Every value built by the program has a positive denominator; comparison and
equality are by cross multiplication, so they agree with the rational value. -/
structure PyFloat where
  num : Int
  den : Int
deriving DecidableEq, Repr

/-- Build a float from an integer. -/
def PyFloat.ofInt (n : Int) : PyFloat := ⟨n, 1⟩

/-- Float addition (exact). -/
def PyFloat.add (x y : PyFloat) : PyFloat :=
  ⟨x.num * y.den + y.num * x.den, x.den * y.den⟩

/-- Float subtraction (exact). -/
def PyFloat.sub (x y : PyFloat) : PyFloat :=
  ⟨x.num * y.den - y.num * x.den, x.den * y.den⟩

/-- Python `x < y` on floats (denominators positive). -/
def PyFloat.blt (x y : PyFloat) : Bool := x.num * y.den < y.num * x.den

/-- Python `x <= y` on floats (denominators positive). -/
def PyFloat.ble (x y : PyFloat) : Bool := x.num * y.den ≤ y.num * x.den

/-- Python `x == y` on floats (value equality, denominators positive). -/
def PyFloat.beqv (x y : PyFloat) : Bool := x.num * y.den = y.num * x.den

/-- Python float truthiness: a float is truthy iff it is nonzero. -/
def PyFloat.truthy (x : PyFloat) : Bool := !(x.beqv (PyFloat.ofInt 0))

/-- `dist[u] + w` where `dist[u]` may be `math.inf` (`none`); `inf + w = inf`. -/
def infAdd (x : Option PyFloat) (w : PyFloat) : Option PyFloat :=
  x.map (fun a => a.add w)

/-- `<` where either side may be `math.inf` (`none`); `inf < y` is false,
`x < inf` is true for finite `x`. -/
def infLt : Option PyFloat → Option PyFloat → Bool
  | none, _ => false
  | some _, none => true
  | some a, some b => a.blt b

/-- A JSON/Python value as the packet layer sees it.  A string carries the
outcome of `json.loads` on it (`parsed = none` when it is not valid JSON), so
that string payload normalization can be expressed on the input itself. -/
inductive PyVal where
  | pstr (s : String) (parsed : Option PyVal)
  | pnum (x : PyFloat)
  | pbool (b : Bool)
  | pnull
  | pdict (entries : List (String × PyVal))
  | plist (items : List PyVal)

/-- Whether the value is a Python `dict`. -/
def PyVal.isDict : PyVal → Bool
  | .pdict _ => true
  | _ => false

/-- Whether the value is a Python `str`. -/
def PyVal.isStr : PyVal → Bool
  | .pstr _ _ => true
  | _ => false

/-! ## Packet schema and canonicalization (`src/protocol/schema.py`) -/

/-- The value stored under `"path"` in a dict-shaped `headers`. -/
inductive RawHeadersPath where
  | plist (xs : List String)
  | pnotlist
deriving DecidableEq, Repr

/-- The raw `headers` field of an inbound object: either a list of node ids or
a dict optionally holding a `"path"` entry (which may fail to be a list).
These are the only shapes pydantic admits for
`Union[List[str], Dict[str, Any]]`. -/
inductive RawHeaders where
  | hlist (xs : List String)
  | hdict (path : Option RawHeadersPath)
deriving DecidableEq, Repr

/-- `BasePacket._normalize_headers`: a list is trimmed to its last 8 entries;
a dict contributes `path[-8:]` when `path` is a list (`path` defaults to `[]`,
a list), else `[]`. -/
def normalize_headers : RawHeaders → List String
  | .hdict none => []
  | .hdict (some (.plist xs)) => takeLast 8 xs
  | .hdict (some .pnotlist) => []
  | .hlist xs => takeLast 8 xs

/-- One character of Python `str.lower()` (ASCII case folding; every id and
type tag the protocol manipulates is ASCII). -/
def lowerChar (c : Char) : Char :=
  if 65 ≤ c.toNat ∧ c.toNat ≤ 90 then Char.ofNat (c.toNat + 32) else c

/-- Python `s.lower()` on the ASCII strings of the protocol. -/
def pyLower (s : String) : String := String.mk (s.data.map lowerChar)

/-- `BasePacket._normalize_to`: any case-insensitive `"broadcast"` becomes the
literal `"broadcast"`. -/
def normalize_to (v : String) : String :=
  if pyLower v = "broadcast" then "broadcast" else v

/-- Second half of `InfoPacket._normalize_info_payload`, after the optional
string re-parse: a non-dict becomes `{}`; a dict with a dict-valued
`"neighbors"` entry is replaced by that entry; any other dict is kept. -/
def normalize_dict_view : PyVal → List (String × PyVal)
  | .pdict es =>
      match dget es "neighbors" with
      | some (.pdict ns) => ns
      | _ => es
  | _ => []

/-- `InfoPacket._normalize_info_payload`: a string is first passed through
`json.loads` (returning `{}` if that fails), then `normalize_dict_view`. -/
def normalize_info_payload : PyVal → List (String × PyVal)
  | .pstr _ none => []
  | .pstr _ (some w) => normalize_dict_view w
  | v => normalize_dict_view v

/-- An INFO payload "lacks the expected shape": it is a string that is not
valid JSON, or a value that (after the optional JSON parse of a string) is not
a mapping. -/
def lacks_expected_shape : PyVal → Bool
  | .pstr _ none => true
  | .pstr _ (some w) => !w.isDict
  | .pdict _ => false
  | _ => true

/-- A validated packet (the result of `PacketFactory.parse_obj`).  `ptype`
renders the Python field `type`, `to_` the keyword field `to`; defaults (`msg_id`, `timestamp`) have been
filled in. -/
structure Packet where
  proto : String
  ptype : String
  from_ : String
  to_ : String
  ttl : Int
  headers : List String
  payload : PyVal
  msg_id : String
  timestamp : PyFloat
  trace_id : Option String

/-- Re-validation of a dumped, already-validated packet through
`PacketFactory.parse_obj` (as `with_decremented_ttl` / `with_appended_hop`
do): all defaults are already present, so only the normalizing validators
act — `to` case folding, header trimming, and (for INFO) payload
normalization. -/
def Packet.revalidate (p : Packet) : Packet :=
  { p with
    to_ := normalize_to p.to_
    headers := takeLast 8 p.headers
    payload := if p.ptype = "info" then .pdict (normalize_info_payload p.payload)
               else p.payload }

/-- `BasePacket.with_decremented_ttl`: a copy with `ttl = max(0, ttl - 1)`
(`self.ttl or 0` equals `self.ttl` numerically), re-validated. -/
def Packet.with_decremented_ttl (p : Packet) : Packet :=
  Packet.revalidate { p with ttl := max 0 (p.ttl - 1) }

/-- `BasePacket.with_appended_hop`: append `node_id` to the hop trail, trim to
the last 8, re-validate. -/
def Packet.with_appended_hop (p : Packet) (node_id : String) : Packet :=
  Packet.revalidate { p with headers := takeLast 8 (p.headers ++ [node_id]) }

/-- `BasePacket.seen_cycle`: true iff `node_id` already occurs in the hop
trail (validated headers are a list). -/
def Packet.seen_cycle (p : Packet) (node_id : String) : Bool :=
  p.headers.contains node_id

instance : Inhabited Packet :=
  ⟨{ proto := "lsr", ptype := "info", from_ := "x", to_ := "x", ttl := 0,
     headers := [], payload := .pnull, msg_id := "", timestamp := PyFloat.ofInt 0,
     trace_id := none }⟩

/-- The fields of a raw inbound JSON object that the validators and the compat
coercion read (`None` = key absent). -/
structure RawObj where
  proto : Option String := none
  ptype : Option String := none
  from_ : Option String := none
  to_ : Option String := none
  ttl : Option Int := none
  headers : Option RawHeaders := none
  payload : Option PyVal := none
  msg_id : Option String := none
  timestamp : Option PyFloat := none
  trace_id : Option String := none
  hops : Option PyFloat := none

/-- Environment supplying the auto-generated defaults of validation
(`generate_msg_id()`, `datetime.now().timestamp()`). -/
structure ParseEnv where
  msg_id : String
  now : PyFloat
deriving DecidableEq, Repr

/-- `PacketFactory.parse_obj` on the INFO path (`(obj.get("type") or
"").lower() == "info"` dispatches to `InfoPacket.model_validate`; the literal
check then requires `type == "info"` exactly).  Field validation:
* `proto`: defaults to `"lsr"`, must be one of the allowed literals;
* `from` (alias): required, nonempty;
* `to`: required, case-folded `"broadcast"` normalized;
* `ttl`: defaults to 5, must lie in `[0, 64]`;
* `headers`: defaults to `[]`, normalized by `_normalize_headers`;
* `payload`: required and (per `Union[Dict[str, Any], str]`) must be a dict
  or a string, then normalized by `_normalize_info_payload`;
* `msg_id` / `timestamp` default from the environment; `trace_id` passes
  through.
The HELLO / MESSAGE branches of the factory are not exercised by the claims
and are not modelled (the function answers `none` off the INFO path). -/
def parse_obj_info (env : ParseEnv) (o : RawObj) : Option Packet :=
  if o.ptype ≠ some "info" then none
  else
    let proto := o.proto.getD "lsr"
    if ¬(["lsr", "flooding", "dvr", "dijkstra"].contains proto) then none
    else
      match o.from_, o.to_ with
      | some f, some t =>
          if f = "" then none
          else
            let ttl := o.ttl.getD 5
            if ttl < 0 ∨ 64 < ttl then none
            else
              match o.payload with
              | none => none
              | some v =>
                  if v.isDict || v.isStr then
                    some
                      { proto := proto
                        ptype := "info"
                        from_ := f
                        to_ := normalize_to t
                        ttl := ttl
                        headers := normalize_headers (o.headers.getD (.hlist []))
                        payload := .pdict (normalize_info_payload v)
                        msg_id := o.msg_id.getD env.msg_id
                        timestamp := o.timestamp.getD env.now
                        trace_id := o.trace_id }
                  else none
      | _, _ => none

/-! ## Forwarding engine (`src/services/fowarding.py`) -/

/-- `ForwardingService._coerce_compat`.  `nbc` is `neighbor_by_channel`
(channel → node id).  Steps, in source order:
1. `from` / `to` given as a known neighbor channel are replaced by the id;
2. a HELLO is forced to `to="broadcast"`, a missing/malformed `headers`
   becomes `[]`, a present non-str/dict payload becomes `"hello"`;
3. a MESSAGE carrying a numeric `hops` and string `from`/`to` is rewritten as
   an INFO from that origin: `to="broadcast"`, `ttl = int(data.get("ttl", 8))`,
   `headers = data.get("headers", [])`, `payload = {str(to): float(hops)}`,
   with `msg_id`/`trace_id` copied when present (nothing else is copied).
Otherwise the object is returned unchanged.  (In this embedding `from_`/`to_`
being `some _` is being present as a string, and `hops` being `some _` is
being present as a number.) -/
def coerce_compat (nbc : List (String × String)) (d0 : RawObj) : RawObj :=
  let t := pyLower (d0.ptype.getD "")
  let d1 :=
    match d0.from_ with
    | some f =>
        match dget nbc f with
        | some nid => { d0 with from_ := some nid }
        | none => d0
    | none => d0
  let d :=
    match d1.to_ with
    | some s =>
        match dget nbc s with
        | some nid => { d1 with to_ := some nid }
        | none => d1
    | none => d1
  if t = "hello" then
    let d := if d.to_ ≠ some "broadcast" then { d with to_ := some "broadcast" } else d
    let d := if d.headers = none then { d with headers := some (.hlist []) } else d
    match d.payload with
    | some v => if v.isStr || v.isDict then d
                else { d with payload := some (.pstr "hello" none) }
    | none => d
  else if t = "message" then
    match d.hops, d.to_, d.from_ with
    | some h, some neigh, some origin =>
        { proto := some (d.proto.getD "lsr")
          ptype := some "info"
          from_ := some origin
          to_ := some "broadcast"
          ttl := some (d.ttl.getD 8)
          headers := some (d.headers.getD (.hlist []))
          payload := some (.pdict [(neigh, .pnum h)])
          msg_id := d.msg_id
          timestamp := none
          trace_id := d.trace_id
          hops := none }
    | _, _, _ => d
  else d

/-- The configuration a `ForwardingService` instance closes over. -/
structure FwdCtx where
  my_id : String
  neighbor_map : List (String × String)
  mode : String
  has_on_info : Bool
deriving DecidableEq, Repr

/-- The externally observable effects of `ForwardingService._handle_packet` on
one inbound packet: msg_ids marked seen, the HELLO liveness touch, the
`on_info` routing callback (origin, payload), a local delivery, and the
packets handed to the transport (each with its destination channels —
singleton for a unicast `publish_json`, the fan-out list for `broadcast`). -/
structure FwdEffects where
  marked_seen : List String := []
  touched_hello : Option String := none
  on_info : Option (String × PyVal) := none
  delivered : Bool := false
  sent : List (List String × Packet) := []

/-- `ForwardingService._broadcast_to_neighbors`: the channels of every
neighbor not excluded and different from `my_id`. -/
def broadcast_channels (ctx : FwdCtx) (exclude : Option String) : List String :=
  ((ctx.neighbor_map.filter (fun e =>
      (match exclude with
       | some x => e.1 != x
       | none => true) && e.1 != ctx.my_id)).map Prod.snd)

/-- `prev_hop = pkt.headers[-1] if pkt.headers else None`, then
`exclude = {prev_hop} if prev_hop else None` (an empty-string hop is falsy and
excludes nothing). -/
def prev_hop_exclude (p : Packet) : Option String :=
  match p.headers.getLast? with
  | some h => if h = "" then none else some h
  | none => none

/-- The INFO handler `ForwardingService._on_info`: without a routing service
the packet is dropped; otherwise the callback fires with `(from, payload)`,
then the packet is re-broadcast with decremented TTL and appended hop unless
the new TTL is ≤ 0, excluding the previous hop. -/
def on_info_effects (ctx : FwdCtx) (p : Packet) (base : FwdEffects) : FwdEffects :=
  if ¬ctx.has_on_info then base
  else
    let base := { base with on_info := some (p.from_, p.payload) }
    let pkt_out := (p.with_decremented_ttl).with_appended_hop ctx.my_id
    if pkt_out.ttl ≤ 0 then base
    else
      let chs := broadcast_channels ctx (prev_hop_exclude p)
      if chs = [] then base else { base with sent := [(chs, pkt_out)] }

/-- The MESSAGE handler `ForwardingService._on_message`: deliver locally when
addressed to me; in flooding mode always flood; otherwise unicast along
`routing_table` when a route and its channel exist (and the decremented TTL is
still positive), falling back to a flood excluding the previous hop. -/
def on_message_effects (ctx : FwdCtx) (rt : List (String × String)) (p : Packet)
    (base : FwdEffects) : FwdEffects :=
  if p.to_ = ctx.my_id then { base with delivered := true }
  else
    let pkt_out := (p.with_decremented_ttl).with_appended_hop ctx.my_id
    let flood : FwdEffects :=
      if pkt_out.ttl > 0 then
        let chs := broadcast_channels ctx (prev_hop_exclude p)
        if chs = [] then base else { base with sent := [(chs, pkt_out)] }
      else base
    if ctx.mode = "flooding" then flood
    else
      match dget rt p.to_ with
      | some nh =>
          match dget ctx.neighbor_map nh with
          | some ch => if pkt_out.ttl > 0 then { base with sent := [([ch], pkt_out)] }
                       else flood
          | none => flood
      | none => flood

/-- `ForwardingService._handle_packet`: de-dupe on `msg_id` (a falsy empty id
is never marked), anti-cycle on the hop trail, TTL gate for INFO/MESSAGE,
then dispatch by type. -/
def handle_packet (ctx : FwdCtx) (seen : List String) (rt : List (String × String))
    (p : Packet) : FwdEffects :=
  if p.msg_id ≠ "" ∧ p.msg_id ∈ seen then {}
  else
    let base : FwdEffects := { marked_seen := if p.msg_id ≠ "" then [p.msg_id] else [] }
    if p.seen_cycle ctx.my_id then base
    else if p.ttl ≤ 0 ∧ (p.ptype = "info" ∨ p.ptype = "message") then base
    else if p.ptype = "hello" then { base with touched_hello := some p.from_ }
    else if p.ptype = "info" then on_info_effects ctx p base
    else if p.ptype = "message" then on_message_effects ctx rt p base
    else base

/-- All packets the handler gave to the transport. -/
def FwdEffects.relayed (e : FwdEffects) : List Packet :=
  e.sent.map Prod.snd

/-! ## State store (`src/storage/state.py`) -/

/-- `NeighborInfo`: link cost and timestamp of the last HELLO. -/
structure NeighborInfo where
  cost : PyFloat
  last_hello_ts : PyFloat
deriving DecidableEq, Repr

/-- The shared node state (`storage.state.State`); `seen_cache` is the
`TTLCache._store` mapping msg_id → expiry. -/
structure State where
  node_id : String
  neighbors : List (String × NeighborInfo) := []
  lsdb : List (String × List (String × PyFloat)) := []
  lsdb_ts : List (String × PyFloat) := []
  routing_table : List (String × String) := []
  seen_cache : List (String × PyFloat) := []
  last_costs : List (String × PyFloat) := []
deriving DecidableEq, Repr

/-- `State.touch_hello`: update `last_hello_ts` of the neighbor when present
(`now` is `time.time()` at the call); a dataclass instance is always truthy,
so `if info:` is exactly presence. -/
def State.touch_hello (st : State) (neighbor_id : String) (now : PyFloat) : State :=
  match dget st.neighbors neighbor_id with
  | some info =>
      let touched : NeighborInfo := { info with last_hello_ts := now }
      { st with neighbors := dset st.neighbors neighbor_id touched }
  | none => st

/-- `State.update_lsdb`: replace `lsdb[origin]` with a copy of `links` and
stamp `lsdb_ts[origin] = time.time()`. -/
def State.update_lsdb (st : State) (origin : String)
    (links : List (String × PyFloat)) (now : PyFloat) : State :=
  { st with
    lsdb := dset st.lsdb origin links
    lsdb_ts := dset st.lsdb_ts origin now }

/-- `State.set_routing_table`. -/
def State.set_routing_table (st : State) (table : List (String × String)) : State :=
  { st with routing_table := table }

/-- `State.set_last_costs`. -/
def State.set_last_costs (st : State) (costs : List (String × PyFloat)) : State :=
  { st with last_costs := costs }

/-- The `is_alive` helper inside `State.build_graph`: the node is a direct
neighbor with a truthy `last_hello_ts` and `now - ts <= (hello_timeout_sec or
0)` (`tsec0` is that defaulted timeout). -/
def State.is_alive (st : State) (now tsec0 : PyFloat) (node_id : String) : Bool :=
  match dget st.neighbors node_id with
  | some ni => ni.last_hello_ts.truthy && (now.sub ni.last_hello_ts).ble tsec0
  | none => false

/-- `State.build_graph`: a symmetric weighted graph from (1) my own links,
filtered by HELLO liveness when a timeout is supplied, each edge closed both
ways with `setdefault`, and (2) every LSDB edge `(u, v, w)`, skipped when a
timeout is supplied and `v` is neither alive nor me, also closed both ways. -/
def State.build_graph (st : State) (now : PyFloat)
    (hello_timeout_sec : Option PyFloat) : List (String × List (String × PyFloat)) :=
  let tsec0 := hello_timeout_sec.getD (PyFloat.ofInt 0)
  let g0 : List (String × List (String × PyFloat)) := dsetdefault [] st.node_id []
  let g1 := st.neighbors.foldl (fun g e =>
      let skip :=
        match hello_timeout_sec with
        | some tsec =>
            e.2.last_hello_ts.beqv (PyFloat.ofInt 0) ||
              tsec.blt (now.sub e.2.last_hello_ts)
        | none => false
      if skip then g
      else
        let g := dset g st.node_id (dset (dgetD g st.node_id []) e.1 e.2.cost)
        dset g e.1 (dsetdefault (dgetD g e.1 []) st.node_id e.2.cost)) g0
  st.lsdb.foldl (fun g ue =>
      let u := ue.1
      let g := dsetdefault g u []
      ue.2.foldl (fun g ve =>
          let v := ve.1
          let w := ve.2
          let skip :=
            match hello_timeout_sec with
            | some _ => !(st.is_alive now tsec0 v) && v != st.node_id
            | none => false
          if skip then g
          else
            let g := dset g u (dset (dgetD g u []) v w)
            let g := dsetdefault g v []
            dset g v (dsetdefault (dgetD g v []) u w)) g) g1

/-! ## LSR routing (`src/services/routing_lsr.py`) -/

/-- `dist[k]` where the distance map stores `math.inf` as `none` (every graph
key is initialized in the map, so the outer default is never exercised on the
graphs the service builds). -/
def iget (m : List (String × Option PyFloat)) (k : String) : Option PyFloat :=
  (dget m k).getD none

/-- The mutable bookkeeping of `_dijkstra_table_and_costs`. -/
structure DijkstraSt where
  dist : List (String × Option PyFloat)
  prev : List (String × Option String)
  visited : List (String × Bool)

/-- The selection scan: the first unvisited node strictly improving the best
distance so far (`u, best = None, inf; for n in graph: ...`). -/
def pick_min_node (ks : List String) (dist : List (String × Option PyFloat))
    (visited : List (String × Bool)) : Option String :=
  (ks.foldl (fun acc n =>
      if !(dgetD visited n false) && infLt (iget dist n) acc.2
      then (some n, iget dist n) else acc)
    ((none : Option String), (none : Option PyFloat))).1

/-- The relaxation scan over `graph[u].items()`: visited targets are skipped,
`alt = dist[u] + w`, and a strict improvement updates `dist[v]` and
`prev[v] = u`. -/
def relax_edges (u : String) (edges : List (String × PyFloat))
    (visited : List (String × Bool))
    (dp : List (String × Option PyFloat) × List (String × Option String)) :
    List (String × Option PyFloat) × List (String × Option String) :=
  edges.foldl (fun dp ve =>
      if dgetD visited ve.1 false then dp
      else
        let alt := infAdd (iget dp.1 u) ve.2
        if infLt alt (iget dp.1 ve.1) then (dset dp.1 ve.1 alt, dset dp.2 ve.1 (some u))
        else dp) dp

/-- The main loop of `_dijkstra_table_and_costs` (`for _ in range(len(graph))`
with an early break when no candidate remains). -/
def dijkstra_loop (g : List (String × List (String × PyFloat))) (ks : List String) :
    Nat → DijkstraSt → DijkstraSt
  | 0, s => s
  | fuel + 1, s =>
      match pick_min_node ks s.dist s.visited with
      | none => s
      | some u =>
          let visited := dset s.visited u true
          let dp := relax_edges u (dgetD g u []) visited (s.dist, s.prev)
          dijkstra_loop g ks fuel { dist := dp.1, prev := dp.2, visited := visited }

/-- The trail walk reconstructing the first hop for `dst`: follow `prev` until
it answers `src` (the hop) or `None` (no entry).  The Python `while` loop
terminates because predecessor chains are acyclic; `|keys| + 1` fuel bounds
every such chain. -/
def walk_to_first_hop (prev : List (String × Option String)) (src : String) :
    Nat → String → Option String
  | 0, _ => none
  | fuel + 1, cur =>
      match (dget prev cur).getD none with
      | none => none
      | some p => if p = src then some cur else walk_to_first_hop prev src fuel p

/-- One destination of the table-reconstruction loop of
`_dijkstra_table_and_costs`: skip `src` and unreachable nodes, else record
the first hop found by the trail walk. -/
def table_step (dist : List (String × Option PyFloat))
    (prev : List (String × Option String)) (src : String) (fuel : Nat)
    (tbl : List (String × String)) (dst : String) : List (String × String) :=
  if dst = src then tbl
  else
    match iget dist dst with
    | none => tbl
    | some _ =>
        match walk_to_first_hop prev src fuel dst with
        | some nh => dset tbl dst nh
        | none => tbl

/-- `_dijkstra_table_and_costs`: run Dijkstra from `src` over the graph's
key order and reconstruct `{dst: first hop}` for every reachable `dst ≠ src`,
returning the table together with the distance map. -/
def dijkstra_table_and_costs (g : List (String × List (String × PyFloat)))
    (src : String) : List (String × String) × List (String × Option PyFloat) :=
  let ks := dkeys g
  let init : DijkstraSt :=
    { dist := dset (ks.map (fun n => (n, (none : Option PyFloat)))) src
        (some (PyFloat.ofInt 0))
      prev := ks.map (fun n => (n, (none : Option String)))
      visited := ks.map (fun n => (n, false)) }
  let fin := dijkstra_loop g ks ks.length init
  (ks.foldl (table_step fin.dist fin.prev src (ks.length + 1)) [], fin.dist)

/-- `RoutingLSRService._recompute_routes`, state part: build the graph with
the HELLO timeout, insert me if missing, run Dijkstra, install the table. -/
def recompute_routes (st : State) (now hello_timeout : PyFloat) : State :=
  let g := st.build_graph now (some hello_timeout)
  let g := dsetdefault g st.node_id []
  st.set_routing_table (dijkstra_table_and_costs g st.node_id).1

/-- `RoutingLSRService.on_info`, state part: unconditionally store the view in
the LSDB (the debounced recompute/advertise that follows does not touch the
LSDB). -/
def lsr_on_info (st : State) (origin : String) (view : List (String × PyFloat))
    (now : PyFloat) : State :=
  st.update_lsdb origin view now

/-- The float-typed view of a payload dict, as `State.lsdb` stores it (on the
payloads the claims exercise — numeric maps and the normalized empty map —
this is the identity on content). -/
def payload_to_links : PyVal → List (String × PyFloat)
  | .pdict es => es.filterMap (fun e =>
      match e.2 with
      | .pnum x => some (e.1, x)
      | _ => none)
  | _ => []

/-- End-to-end INFO processing with an attached LSR service: the forwarding
dispatch of `p`, then `RoutingLSRService.on_info` on the callback's
`(origin, payload)` when it fired. -/
def process_info_with_lsr (ctx : FwdCtx) (seen : List String) (st : State)
    (p : Packet) (now : PyFloat) : State :=
  match (handle_packet ctx seen st.routing_table p).on_info with
  | some op => lsr_on_info st op.1 (payload_to_links op.2) now
  | none => st

/-! ## DVR routing (`src/services/routing_dvr.py`) -/

/-- `INF = 1e9`. -/
def INF : PyFloat := PyFloat.ofInt 1000000000

/-- The literal `1e-9` in the Bellman-Ford strict-improvement test. -/
def DVR_EPS : PyFloat := ⟨1, 1000000000⟩

/-- The distance vector `dv : dest → (cost, next_hop)`. -/
abbrev DV : Type := List (String × (PyFloat × Option String))

/-- The update loop of `RoutingDVRService.on_info` over the received vector
(`origin` is the sending neighbor, `neigh_cost` my cost to it): skip myself;
a strictly better `neigh_cost + cost_via` (beyond the `1e-9` tolerance)
installs `(new_cost, origin)`; a poison (`cost_via >= INF`) from my current
next hop resets the entry to `(INF, None)`.  Returns the new vector and the
`changed` flag. -/
def dvr_on_info_dv (my_id origin : String) (neigh_cost : PyFloat)
    (dv_neighbor : List (String × PyFloat)) (dv0 : DV) : DV × Bool :=
  dv_neighbor.foldl (fun acc e =>
      if e.1 = my_id then acc
      else
        let new_cost := neigh_cost.add e.2
        let old := dgetD acc.1 e.1 (INF, none)
        let first_upd := new_cost.blt (old.1.sub DVR_EPS)
        let dv1 := if first_upd then dset acc.1 e.1 (new_cost, some origin) else acc.1
        let second_upd := old.2 = some origin ∧ INF.ble e.2
        let dv2 := if second_upd then dset dv1 e.1 (INF, none) else dv1
        (dv2, acc.2 || first_upd || decide second_upd)) (dv0, false)

/-- The base vector of `_advertise_all`: `{d: c for d, (c, _) in dv}` with
myself overwritten to cost 0. -/
def dv_base_vector (dv : DV) (my_id : String) : List (String × PyFloat) :=
  dset (dv.map (fun e => (e.1, e.2.1))) my_id (PyFloat.ofInt 0)

/-- The vector `_advertise_all` sends to the neighbor `neigh` when
split-horizon with poison reverse is enabled: the base vector with every
destination whose current next hop is `neigh` overwritten to `INF`. -/
def advertise_vector_to (dv : DV) (my_id neigh : String) : List (String × PyFloat) :=
  dv.foldl (fun out e => if e.2.2 = some neigh then dset out e.1 INF else out)
    (dv_base_vector dv my_id)

/-- The entry list of `_install_into_state`: every destination other than me
with finite cost and a present next hop, as `(dest, next_hop, float(cost))`. -/
def install_entries (dv : DV) (my_id : String) : List (String × String × PyFloat) :=
  dv.filterMap (fun e =>
      if e.1 = my_id then none
      else
        match e.2.2 with
        | some nh => if e.2.1.blt INF then some (e.1, nh, e.2.1) else none
        | none => none)

/-- Modelled from the spec: `State.set_routes` is called by
`RoutingDVRService._install_into_state` but is not defined in the sources
provided (only this caller exists).  Per the spec's Install step —
"`set_routes` = `[(dest, next_hop, cost) for dest,(cost,nh) in dv if cost <
INF and nh]`. Update `routing_table` and `last_costs` accordingly." with
`RoutingTable : destination → next_hop` and `LastCosts : destination → cost`
— it installs the entries as the routing table and last-known costs. -/
def State.set_routes (st : State) (entries : List (String × String × PyFloat)) : State :=
  { st with
    routing_table := entries.map (fun e => (e.1, e.2.1))
    last_costs := entries.map (fun e => (e.1, e.2.2)) }

/-- `RoutingDVRService._install_into_state`. -/
def install_into_state (st : State) (dv : DV) (my_id : String) : State :=
  st.set_routes (install_entries dv my_id)

/-- State effect of `RoutingDVRService.on_info` once the payload carries a
`dv` mapping from a direct neighbor: run the update loop; when it marks a
change, install the new vector into the shared state (the re-advertisement
does not change state). -/
def dvr_on_info_state (st : State) (my_id origin : String) (neigh_cost : PyFloat)
    (dv_neighbor : List (String × PyFloat)) (dv0 : DV) : State × DV :=
  let r := dvr_on_info_dv my_id origin neigh_cost dv_neighbor dv0
  (if r.2 then install_into_state st r.1 my_id else st, r.1)

/-! ## Claim C8 input shapes -/

/-- The message-shaped compat packet of the claim:
`{type:"message", from:X, to:Y, hops:h, ttl:t}` with optional
`msg_id`/`trace_id`. -/
def compat_message_obj (X Y : String) (h : PyFloat) (t : Option Int)
    (m tr : Option String) : RawObj :=
  { ptype := some "message", from_ := some X, to_ := some Y, hops := some h,
    ttl := t, msg_id := m, trace_id := tr }

/-- Written from the spec's words, for the refinement comparison: the INFO
object `{type:"info", from:X, to:"broadcast", ttl:t, payload:{Y: h}}` with
`msg_id`/`trace_id` copied when present and `ttl` defaulting to 8 when
absent. -/
def spec_equivalent_info_obj (X Y : String) (h : PyFloat) (t : Option Int)
    (m tr : Option String) : RawObj :=
  { ptype := some "info", from_ := some X, to_ := some "broadcast",
    ttl := some (t.getD 8), payload := some (.pdict [(Y, .pnum h)]),
    msg_id := m, trace_id := tr }

/-- Whether the advertisement loop of `_advertise_all` poisons destination
`d` towards neighbor `neigh`: `d` has an entry in the vector whose next hop is
`neigh`. -/
def poisoned_for (dv : DV) (neigh d : String) : Bool :=
  match dget dv d with
  | some e => e.2 = some neigh
  | none => false

/-! ## Association-list and trimming lemmas -/

theorem dget_dset_self {α : Type} (m : List (String × α)) (k : String) (v : α) :
    dget (dset m k v) k = some v := by
  induction m with
  | nil => simp [dget, dset]
  | cons e rest ih =>
      by_cases h : e.1 = k <;> simp [dget, dset, h, ih]

theorem dget_dset_ne {α : Type} (m : List (String × α)) (k k' : String) (v : α)
    (h : k' ≠ k) : dget (dset m k v) k' = dget m k' := by
  induction m with
  | nil =>
      simp only [dset, dget]
      rw [if_neg (fun hh => h hh.symm)]
  | cons e rest ih =>
      by_cases he : e.1 = k
      · have hne : ¬ e.1 = k' := by rw [he]; exact fun hh => h hh.symm
        simp [dget, dset, he, hne, h, h.symm]
      · by_cases he' : e.1 = k' <;> simp [dget, dset, he, he', ih, h]

theorem takeLast_le {α : Type} (n : Nat) (xs : List α) :
    (takeLast n xs).length ≤ n := by
  simp [takeLast]
  omega

theorem takeLast_of_le {α : Type} (n : Nat) (xs : List α) (h : xs.length ≤ n) :
    takeLast n xs = xs := by
  have : xs.length - n = 0 := by omega
  simp [takeLast, this]

/-! ## Claim theorems -/

/-- **C6.** Every validated `headers` input (a list, or an object with a
`"path"` list) is trimmed to at most 8 entries; `with_appended_hop` appends
the given id at the end and then trims to the last 8; hence any number of hop
appends keeps the bound. -/
theorem headers_bound_and_append_last (raw : RawHeaders) (p : Packet)
    (node_id : String) (ids : List String) (hp : p.headers.length ≤ 8) :
    (normalize_headers raw).length ≤ 8 ∧
    (p.with_appended_hop node_id).headers = takeLast 8 (p.headers ++ [node_id]) ∧
    ((ids.foldl Packet.with_appended_hop p).headers).length ≤ 8 := by
  have happ : ∀ (q : Packet) (i : String),
      (q.with_appended_hop i).headers = takeLast 8 (q.headers ++ [i]) := by
    intro q i
    simp [Packet.with_appended_hop, Packet.revalidate,
      takeLast_of_le 8 (takeLast 8 (q.headers ++ [i])) (takeLast_le 8 _)]
  refine ⟨?_, happ p node_id, ?_⟩
  · cases raw with
    | hlist xs => simpa [normalize_headers] using takeLast_le 8 xs
    | hdict path =>
        match path with
        | none => simp [normalize_headers]
        | some (.plist xs) => simpa [normalize_headers] using takeLast_le 8 xs
        | some .pnotlist => simp [normalize_headers]
  · induction ids generalizing p with
    | nil => simpa using hp
    | cons i rest ih =>
        simpa [List.foldl] using ih (p.with_appended_hop i) (by
          rw [happ p i]; exact takeLast_le 8 _)

/-- Closed witness for the C6 theorem at a concrete packet and hop list. -/
theorem headers_bound_and_append_last_witness :
    (normalize_headers (.hdict (some (.plist ["A", "B"])))).length ≤ 8 ∧
    ((Packet.mk "lsr" "info" "A" "broadcast" 5 ["A", "B"] (.pdict []) "m"
        (PyFloat.ofInt 0) none).with_appended_hop "C").headers =
      takeLast 8 (["A", "B"] ++ ["C"]) ∧
    ((["C", "D", "E", "F", "G", "H", "I", "J", "K"].foldl Packet.with_appended_hop
        (Packet.mk "lsr" "info" "A" "broadcast" 5 ["A", "B"] (.pdict []) "m"
          (PyFloat.ofInt 0) none)).headers).length ≤ 8 := by
  have h := headers_bound_and_append_last (.hdict (some (.plist ["A", "B"])))
    (Packet.mk "lsr" "info" "A" "broadcast" 5 ["A", "B"] (.pdict []) "m"
      (PyFloat.ofInt 0) none)
    "C" ["C", "D", "E", "F", "G", "H", "I", "J", "K"] (by decide)
  exact h

/-- **C9.** `touch_hello` on an id absent from the neighbors table leaves the
whole state unchanged; in general it never touches any other field of
`State`, never touches other neighbors, and only rewrites `last_hello_ts` of
an already-present neighbor (keeping its cost). -/
theorem touch_hello_frame (st : State) (neighbor_id : String) (now : PyFloat) :
    (dget st.neighbors neighbor_id = none → st.touch_hello neighbor_id now = st) ∧
    ((st.touch_hello neighbor_id now).node_id = st.node_id ∧
      (st.touch_hello neighbor_id now).lsdb = st.lsdb ∧
      (st.touch_hello neighbor_id now).lsdb_ts = st.lsdb_ts ∧
      (st.touch_hello neighbor_id now).routing_table = st.routing_table ∧
      (st.touch_hello neighbor_id now).seen_cache = st.seen_cache ∧
      (st.touch_hello neighbor_id now).last_costs = st.last_costs) ∧
    (∀ j, j ≠ neighbor_id →
      dget (st.touch_hello neighbor_id now).neighbors j = dget st.neighbors j) ∧
    (∀ ni, dget st.neighbors neighbor_id = some ni →
      dget (st.touch_hello neighbor_id now).neighbors neighbor_id =
        some { ni with last_hello_ts := now }) := by
  refine ⟨?_, ?_, ?_, ?_⟩
  · intro h
    simp [State.touch_hello, h]
  · cases h : dget st.neighbors neighbor_id <;> simp [State.touch_hello, h]
  · intro j hj
    cases h : dget st.neighbors neighbor_id with
    | none => simp [State.touch_hello, h]
    | some ni => simp [State.touch_hello, h, dget_dset_ne _ _ _ _ hj]
  · intro ni h
    simp [State.touch_hello, h, dget_dset_self]

/-- Closed witness for the C9 theorem: an absent id leaves a concrete state
unchanged, a present one gets exactly its timestamp rewritten. -/
theorem touch_hello_frame_witness :
    ((State.mk "A" [("B", ⟨PyFloat.ofInt 1, PyFloat.ofInt 0⟩)] [] [] [] [] []).touch_hello
        "C" (PyFloat.ofInt 9) =
      State.mk "A" [("B", ⟨PyFloat.ofInt 1, PyFloat.ofInt 0⟩)] [] [] [] [] []) ∧
    dget ((State.mk "A" [("B", ⟨PyFloat.ofInt 1, PyFloat.ofInt 0⟩)] [] [] [] [] []).touch_hello
        "B" (PyFloat.ofInt 9)).neighbors "B" =
      some ⟨PyFloat.ofInt 1, PyFloat.ofInt 9⟩ := by
  constructor
  · exact (touch_hello_frame _ "C" (PyFloat.ofInt 9)).1 (by decide)
  · exact (touch_hello_frame _ "B" (PyFloat.ofInt 9)).2.2.2
      ⟨PyFloat.ofInt 1, PyFloat.ofInt 0⟩ (by decide)

theorem with_appended_hop_ttl (p : Packet) (i : String) :
    (p.with_appended_hop i).ttl = p.ttl := rfl

theorem with_decremented_ttl_ttl (p : Packet) :
    (p.with_decremented_ttl).ttl = max 0 (p.ttl - 1) := rfl

theorem on_info_effects_relayed (ctx : FwdCtx) (p : Packet) (base : FwdEffects)
    (hb : base.sent = []) (q : Packet)
    (hq : q ∈ ((on_info_effects ctx p base).sent.map Prod.snd)) :
    q = (p.with_decremented_ttl).with_appended_hop ctx.my_id ∧ 0 < q.ttl := by
  by_cases h1 : ctx.has_on_info
  · by_cases h2 : ((p.with_decremented_ttl).with_appended_hop ctx.my_id).ttl ≤ 0
    · simp [on_info_effects, h1, h2, hb] at hq
    · by_cases h3 : broadcast_channels ctx (prev_hop_exclude p) = []
      · simp [on_info_effects, h1, h2, h3, hb] at hq
      · simp [on_info_effects, h1, h2, h3, hb] at hq
        subst hq
        exact ⟨rfl, by omega⟩
  · simp [on_info_effects, h1, hb] at hq

theorem on_message_effects_relayed (ctx : FwdCtx) (rt : List (String × String))
    (p : Packet) (base : FwdEffects) (hb : base.sent = []) (q : Packet)
    (hq : q ∈ ((on_message_effects ctx rt p base).sent.map Prod.snd)) :
    q = (p.with_decremented_ttl).with_appended_hop ctx.my_id ∧ 0 < q.ttl := by
  by_cases hto : p.to_ = ctx.my_id
  · simp [on_message_effects, hto, hb] at hq
  · have hflood : ∀ hq' : q ∈
        ((if ((p.with_decremented_ttl).with_appended_hop ctx.my_id).ttl > 0 then
            if broadcast_channels ctx (prev_hop_exclude p) = [] then base
            else { base with
              sent := [(broadcast_channels ctx (prev_hop_exclude p),
                (p.with_decremented_ttl).with_appended_hop ctx.my_id)] }
          else base).sent.map Prod.snd),
        q = (p.with_decremented_ttl).with_appended_hop ctx.my_id ∧ 0 < q.ttl := by
      intro hq'
      by_cases h2 : ((p.with_decremented_ttl).with_appended_hop ctx.my_id).ttl > 0
      · by_cases h3 : broadcast_channels ctx (prev_hop_exclude p) = []
        · simp [h2, h3, hb] at hq'
        · simp [h2, h3, hb] at hq'
          subst hq'
          exact ⟨rfl, by omega⟩
      · simp [h2, hb] at hq'
    by_cases hmode : ctx.mode = "flooding"
    · exact hflood (by simpa [on_message_effects, hto, hmode] using hq)
    · cases hr : dget rt p.to_ with
      | none => exact hflood (by simpa [on_message_effects, hto, hmode, hr] using hq)
      | some nh =>
          cases hch : dget ctx.neighbor_map nh with
          | none => exact hflood (by simpa [on_message_effects, hto, hmode, hr, hch] using hq)
          | some ch =>
              by_cases h2 : ((p.with_decremented_ttl).with_appended_hop ctx.my_id).ttl > 0
              · simp [on_message_effects, hto, hmode, hr, hch, h2, hb] at hq
                subst hq
                exact ⟨rfl, by omega⟩
              · exact hflood (by simpa [on_message_effects, hto, hmode, hr, hch, h2] using hq)

theorem handle_packet_relayed (ctx : FwdCtx) (seen : List String)
    (rt : List (String × String)) (p : Packet) (q : Packet)
    (hq : q ∈ (handle_packet ctx seen rt p).relayed) :
    q = (p.with_decremented_ttl).with_appended_hop ctx.my_id ∧ 0 < q.ttl := by
  unfold handle_packet FwdEffects.relayed at hq
  by_cases h1 : p.msg_id ≠ "" ∧ p.msg_id ∈ seen
  · simp [h1] at hq
  · by_cases h2 : p.seen_cycle ctx.my_id
    · simp [h1, h2] at hq
    · by_cases h3 : p.ttl ≤ 0 ∧ (p.ptype = "info" ∨ p.ptype = "message")
      · simp [h1, h2, h3] at hq
      · by_cases h4 : p.ptype = "hello"
        · simp [h1, h2, h3, h4] at hq
        · by_cases h5 : p.ptype = "info"
          · have ht : ¬ p.ttl ≤ 0 := fun hle => h3 ⟨hle, Or.inl h5⟩
            refine on_info_effects_relayed ctx p
              { marked_seen := if p.msg_id ≠ "" then [p.msg_id] else [] } rfl q ?_
            simpa [h1, h2, h3, h4, h5, ht] using hq
          · by_cases h6 : p.ptype = "message"
            · have ht : ¬ p.ttl ≤ 0 := fun hle => h3 ⟨hle, Or.inr h6⟩
              refine on_message_effects_relayed ctx rt p
                { marked_seen := if p.msg_id ≠ "" then [p.msg_id] else [] } rfl q ?_
              simpa [h1, h2, h3, h4, h5, h6, ht] using hq
            · simp [h1, h2, h3, h4, h5, h6] at hq

/-- **C5.** `with_decremented_ttl` yields a packet whose `ttl` is
`max(0, ttl-1)` (the original is untouched — the transformation is a pure
copy), and every packet the forwarding engine hands to the transport (INFO
rebroadcast, MESSAGE unicast, or flood) carries `ttl = max(0, inbound.ttl-1)`
and is only sent when that value is positive. -/
theorem ttl_decrement_and_relay (ctx : FwdCtx) (seen : List String)
    (rt : List (String × String)) (p q : Packet)
    (hq : q ∈ (handle_packet ctx seen rt p).relayed) :
    (∀ r : Packet, (r.with_decremented_ttl).ttl = max 0 (r.ttl - 1)) ∧
    q.ttl = max 0 (p.ttl - 1) ∧ 0 < q.ttl := by
  obtain ⟨hqe, hqt⟩ := handle_packet_relayed ctx seen rt p q hq
  refine ⟨fun r => with_decremented_ttl_ttl r, ?_, hqt⟩
  rw [hqe, with_appended_hop_ttl, with_decremented_ttl_ttl]

/-- Closed witness for the C5 theorem: a concrete INFO packet with `ttl = 2`
is rebroadcast with `ttl = 1`. -/
theorem ttl_decrement_and_relay_witness :
    ((Packet.mk "lsr" "info" "B" "broadcast" 2 [] (.pdict []) "m1"
        (PyFloat.ofInt 0) none).with_decremented_ttl).ttl = max 0 (2 - 1) ∧
    (((Packet.mk "lsr" "info" "B" "broadcast" 2 [] (.pdict []) "m1"
        (PyFloat.ofInt 0) none).with_decremented_ttl).with_appended_hop "A").ttl =
      max 0 (2 - 1) ∧
    0 < (((Packet.mk "lsr" "info" "B" "broadcast" 2 [] (.pdict []) "m1"
        (PyFloat.ofInt 0) none).with_decremented_ttl).with_appended_hop "A").ttl := by
  have h := ttl_decrement_and_relay (FwdCtx.mk "A" [("B", "chB")] "lsr" true) [] []
    (Packet.mk "lsr" "info" "B" "broadcast" 2 [] (.pdict []) "m1" (PyFloat.ofInt 0) none)
    (((Packet.mk "lsr" "info" "B" "broadcast" 2 [] (.pdict []) "m1"
        (PyFloat.ofInt 0) none).with_decremented_ttl).with_appended_hop "A")
    (List.Mem.head _)
  exact ⟨h.1 _, h.2.1, h.2.2⟩

/-- **C4.** A packet whose hop trail already contains this node's id is
dropped by `_handle_packet`: no routing callback, no local delivery, nothing
handed to the transport. -/
theorem anti_loop_drop (ctx : FwdCtx) (seen : List String)
    (rt : List (String × String)) (p : Packet) (h : ctx.my_id ∈ p.headers) :
    (handle_packet ctx seen rt p).on_info = none ∧
    (handle_packet ctx seen rt p).delivered = false ∧
    (handle_packet ctx seen rt p).sent = [] := by
  have hc : p.seen_cycle ctx.my_id := by
    simpa [Packet.seen_cycle] using h
  unfold handle_packet
  by_cases h1 : p.msg_id ≠ "" ∧ p.msg_id ∈ seen
  · simp [h1]
  · simp [h1, hc]

/-- Closed witness for the C4 theorem: a concrete MESSAGE whose trail already
holds `"A"` produces no callback, no delivery and no sends at `"A"`. -/
theorem anti_loop_drop_witness :
    (handle_packet (FwdCtx.mk "A" [("B", "chB")] "lsr" true) [] []
        (Packet.mk "lsr" "message" "B" "C" 5 ["X", "A"] (.pdict []) "m2"
          (PyFloat.ofInt 0) none)).on_info = none ∧
    (handle_packet (FwdCtx.mk "A" [("B", "chB")] "lsr" true) [] []
        (Packet.mk "lsr" "message" "B" "C" 5 ["X", "A"] (.pdict []) "m2"
          (PyFloat.ofInt 0) none)).delivered = false ∧
    (handle_packet (FwdCtx.mk "A" [("B", "chB")] "lsr" true) [] []
        (Packet.mk "lsr" "message" "B" "C" 5 ["X", "A"] (.pdict []) "m2"
          (PyFloat.ofInt 0) none)).sent = [] :=
  anti_loop_drop _ _ _ _ (by decide)

theorem dget_eq_none_of_not_mem_keys {α : Type} (m : List (String × α))
    (d : String) (h : d ∉ dkeys m) : dget m d = none := by
  induction m with
  | nil => rfl
  | cons e rest ih =>
      have h1 : ¬ e.1 = d := fun he => h (by simp [dkeys, he])
      have h2 : d ∉ dkeys rest := fun hd => h (by simp [dkeys] at hd ⊢; exact Or.inr hd)
      simp [dget, h1, ih h2]

theorem poison_foldl (es : DV) (out : List (String × PyFloat)) (neigh d : String)
    (hnd : (dkeys es).Nodup) :
    dget (es.foldl (fun out e => if e.2.2 = some neigh then dset out e.1 INF else out)
        out) d =
      (if poisoned_for es neigh d then some INF else dget out d) := by
  induction es generalizing out with
  | nil => rfl
  | cons e rest ih =>
      have hnd' : (dkeys rest).Nodup := by
        simpa [dkeys] using hnd.of_cons
      have hnotin : e.1 ∉ dkeys rest := by
        have hnd2 : (e.1 :: dkeys rest).Nodup := by simpa [dkeys] using hnd
        exact (List.nodup_cons.mp hnd2).1
      rw [List.foldl_cons, ih _ hnd']
      by_cases hd : e.1 = d
      · subst hd
        have hrest : dget rest e.1 = none := dget_eq_none_of_not_mem_keys _ _ hnotin
        have hpois : poisoned_for rest neigh e.1 = false := by
          simp [poisoned_for, hrest]
        by_cases hp : e.2.2 = some neigh
        · simp [hpois, poisoned_for, dget, hp, hrest, dget_dset_self]
        · simp [hpois, poisoned_for, dget, hp, hrest]
      · have hskip : poisoned_for (e :: rest) neigh d = poisoned_for rest neigh d := by
          simp [poisoned_for, dget, hd]
        rw [hskip]
        by_cases hp : e.2.2 = some neigh
        · simp [hp, dget_dset_ne _ _ _ _ (fun hh => hd hh.symm)]
        · simp [hp]

/-- **C7.** With split-horizon/poison-reverse enabled, the vector
`_advertise_all` sends to a neighbor agrees with the base vector
(`{dest: cost}` with myself at cost 0) at every destination, except that each
destination whose current next hop is that neighbor is overwritten to
`INF = 1e9` (stated for vectors with duplicate-free keys, which every Python
dict satisfies). -/
theorem advertise_poison_reverse (dv : DV) (my_id neigh : String)
    (hnd : (dkeys dv).Nodup) (d : String) :
    dget (advertise_vector_to dv my_id neigh) d =
      (if poisoned_for dv neigh d then some INF
       else dget (dv_base_vector dv my_id) d) ∧
    dget (dv_base_vector dv my_id) my_id = some (PyFloat.ofInt 0) := by
  exact ⟨poison_foldl dv (dv_base_vector dv my_id) neigh d hnd,
    dget_dset_self _ _ _⟩

/-- Closed witness for the C7 theorem: with `dv = {B: (1, B), C: (2, B)}` at
node `A`, the vector sent to `B` poisons both destinations routed via `B` and
keeps `A` at 0. -/
theorem advertise_poison_reverse_witness :
    dget (advertise_vector_to
        [("B", (PyFloat.ofInt 1, some "B")), ("C", (PyFloat.ofInt 2, some "B"))]
        "A" "B") "C" =
      (if poisoned_for
          [("B", (PyFloat.ofInt 1, some "B")), ("C", (PyFloat.ofInt 2, some "B"))]
          "B" "C" then some INF
       else dget (dv_base_vector
          [("B", (PyFloat.ofInt 1, some "B")), ("C", (PyFloat.ofInt 2, some "B"))]
          "A") "C") ∧
    dget (dv_base_vector
        [("B", (PyFloat.ofInt 1, some "B")), ("C", (PyFloat.ofInt 2, some "B"))]
        "A") "A" = some (PyFloat.ofInt 0) :=
  advertise_poison_reverse
    [("B", (PyFloat.ofInt 1, some "B")), ("C", (PyFloat.ofInt 2, some "B"))]
    "A" "B" (by decide) "C"

theorem install_entries_filter (dv : DV) (my_id : String) :
    install_entries dv my_id =
      (dv.filter (fun e => decide (e.1 ≠ my_id) && e.2.1.blt INF && e.2.2.isSome)).map
        (fun e => (e.1, e.2.2.getD "", e.2.1)) := by
  induction dv with
  | nil => rfl
  | cons e rest ih =>
      by_cases h1 : e.1 = my_id
      · simp [install_entries, List.filterMap_cons, h1, ih, install_entries] at ih ⊢
        exact ih
      · cases h2 : e.2.2 with
        | none => simpa [install_entries, List.filterMap_cons, h1, h2] using ih
        | some nh =>
            by_cases h3 : e.2.1.blt INF <;>
              simpa [install_entries, List.filterMap_cons, h1, h2, h3] using ih

/-- **C2.** When the DVR update loop marks the vector as changed, the state
receives exactly the entries `[(dest, next_hop, cost) for dest, (cost, nh) in
dv if cost < INF and nh]` excluding myself, and `routing_table` /
`last_costs` become the corresponding projections of those entries. -/
theorem dvr_install_exact (st : State) (my_id origin : String)
    (neigh_cost : PyFloat) (dv_neighbor : List (String × PyFloat)) (dv0 : DV)
    (hch : (dvr_on_info_dv my_id origin neigh_cost dv_neighbor dv0).2 = true) :
    install_entries (dvr_on_info_dv my_id origin neigh_cost dv_neighbor dv0).1 my_id =
      (((dvr_on_info_dv my_id origin neigh_cost dv_neighbor dv0).1).filter
          (fun e => decide (e.1 ≠ my_id) && e.2.1.blt INF && e.2.2.isSome)).map
        (fun e => (e.1, e.2.2.getD "", e.2.1)) ∧
    ((dvr_on_info_state st my_id origin neigh_cost dv_neighbor dv0).1).routing_table =
      (install_entries (dvr_on_info_dv my_id origin neigh_cost dv_neighbor dv0).1
          my_id).map (fun e => (e.1, e.2.1)) ∧
    ((dvr_on_info_state st my_id origin neigh_cost dv_neighbor dv0).1).last_costs =
      (install_entries (dvr_on_info_dv my_id origin neigh_cost dv_neighbor dv0).1
          my_id).map (fun e => (e.1, e.2.2)) := by
  refine ⟨install_entries_filter _ _, ?_, ?_⟩ <;>
    simp [dvr_on_info_state, hch, install_into_state, State.set_routes]

/-- Closed witness for the C2 theorem: node `A` with an empty vector learns
`{C: 1}` from neighbor `B` at link cost 1; the change installs routing table
`{C: B}` and last costs `{C: 2}`. -/
theorem dvr_install_exact_witness :
    ((dvr_on_info_state (State.mk "A" [] [] [] [] [] []) "A" "B" (PyFloat.ofInt 1)
        [("C", PyFloat.ofInt 1)] []).1).routing_table =
      (install_entries (dvr_on_info_dv "A" "B" (PyFloat.ofInt 1)
          [("C", PyFloat.ofInt 1)] []).1 "A").map (fun e => (e.1, e.2.1)) ∧
    ((dvr_on_info_state (State.mk "A" [] [] [] [] [] []) "A" "B" (PyFloat.ofInt 1)
        [("C", PyFloat.ofInt 1)] []).1).last_costs =
      (install_entries (dvr_on_info_dv "A" "B" (PyFloat.ofInt 1)
          [("C", PyFloat.ofInt 1)] []).1 "A").map (fun e => (e.1, e.2.2)) := by
  have h := dvr_install_exact (State.mk "A" [] [] [] [] [] []) "A" "B"
    (PyFloat.ofInt 1) [("C", PyFloat.ofInt 1)] [] (by decide)
  exact ⟨h.2.1, h.2.2⟩

/-- **C8.** Coercing the message-shaped compat packet
`{type:"message", from:X, to:Y, hops:h, ttl:t}` and validating it yields
exactly the same validated packet as validating the spec's INFO counterpart
`{type:"info", from:X, to:"broadcast", ttl:t, payload:{Y: h}}` (same
auto-generated defaults supplied by `env`), with `msg_id`/`trace_id` copied
when present and `ttl` defaulting to 8 when absent; since the node's
processing is a function of the validated packet and its state, it processes
the two identically.  `X`, `Y` are node ids, not known neighbor channel
names. -/
theorem compat_coercion_equiv (env : ParseEnv) (nbc : List (String × String))
    (X Y : String) (h : PyFloat) (t : Option Int) (m tr : Option String)
    (hX : dget nbc X = none) (hY : dget nbc Y = none) :
    parse_obj_info env (coerce_compat nbc (compat_message_obj X Y h t m tr)) =
      parse_obj_info env (spec_equivalent_info_obj X Y h t m tr) := by
  have hco : coerce_compat nbc (compat_message_obj X Y h t m tr) =
      { proto := some "lsr", ptype := some "info", from_ := some X,
        to_ := some "broadcast", ttl := some (t.getD 8),
        headers := some (.hlist []), payload := some (.pdict [(Y, .pnum h)]),
        msg_id := m, timestamp := none, trace_id := tr, hops := none } := by
    have h1 : ¬ pyLower "message" = "hello" := by decide
    have h2 : pyLower "message" = "message" := by decide
    simp [coerce_compat, compat_message_obj, hX, hY, h1, h2]
  rw [hco]
  rfl

/-- Closed witness for the C8 theorem at the spec's concrete scenario
(`X="X"`, `Y="Y"`, `hops=4`, `ttl=8`, a carried `msg_id`). -/
theorem compat_coercion_equiv_witness :
    parse_obj_info (ParseEnv.mk "gen" (PyFloat.ofInt 0))
        (coerce_compat [("chA", "A")]
          (compat_message_obj "X" "Y" (PyFloat.ofInt 4) (some 8) (some "mid") none)) =
      parse_obj_info (ParseEnv.mk "gen" (PyFloat.ofInt 0))
        (spec_equivalent_info_obj "X" "Y" (PyFloat.ofInt 4) (some 8) (some "mid") none) :=
  compat_coercion_equiv (ParseEnv.mk "gen" (PyFloat.ofInt 0)) [("chA", "A")]
    "X" "Y" (PyFloat.ofInt 4) (some 8) (some "mid") none (by decide) (by decide)

theorem lacks_shape_normalizes_empty (v : PyVal)
    (h : lacks_expected_shape v = true) : normalize_info_payload v = [] := by
  cases v with
  | pstr s parsed =>
      cases parsed with
      | none => rfl
      | some w =>
          cases w <;> simp [lacks_expected_shape, PyVal.isDict] at h ⊢ <;>
            simp [normalize_info_payload, normalize_dict_view]
  | pdict es => simp [lacks_expected_shape] at h
  | pnum x => rfl
  | pbool b => rfl
  | pnull => rfl
  | plist xs => rfl

/-- **C10 (amended).** Payload normalization maps every value lacking the
expected shape to the empty mapping, and for the payload shapes the pydantic
field type admits — a dict or a string — an INFO object with otherwise valid
fields passes validation, carrying the normalized payload.  A payload that is
neither a dict nor a string, however, fails the `Union[Dict[str, Any], str]`
type check (the normalizing validator runs after it), so that packet is
dropped rather than normalized. -/
theorem info_payload_validation_total (env : ParseEnv) (o : RawObj) (v : PyVal)
    (f tt : String)
    (hty : o.ptype = some "info")
    (hproto : (["lsr", "flooding", "dvr", "dijkstra"]).contains (o.proto.getD "lsr") = true)
    (hf : o.from_ = some f) (hfne : ¬ f = "")
    (htt : o.to_ = some tt)
    (httl : ¬(o.ttl.getD 5 < 0 ∨ 64 < o.ttl.getD 5))
    (hpay : o.payload = some v) :
    (lacks_expected_shape v = true → normalize_info_payload v = []) ∧
    ((v.isDict || v.isStr) = true →
      parse_obj_info env o = some
        { proto := o.proto.getD "lsr", ptype := "info", from_ := f,
          to_ := normalize_to tt, ttl := o.ttl.getD 5,
          headers := normalize_headers (o.headers.getD (.hlist [])),
          payload := .pdict (normalize_info_payload v),
          msg_id := o.msg_id.getD env.msg_id,
          timestamp := o.timestamp.getD env.now,
          trace_id := o.trace_id }) ∧
    ((v.isDict || v.isStr) = false → parse_obj_info env o = none) := by
  have hp4 : o.proto.getD "lsr" = "lsr" ∨ o.proto.getD "lsr" = "flooding" ∨
      o.proto.getD "lsr" = "dvr" ∨ o.proto.getD "lsr" = "dijkstra" := by
    simpa using hproto
  refine ⟨lacks_shape_normalizes_empty v, ?_, ?_⟩
  all_goals intro hv
  all_goals simp [parse_obj_info, hty, hproto, hf, hfne, htt, httl, hpay, hv]
  all_goals tauto

/-- Closed witness for the C10 theorem: a non-JSON string payload is
normalized to the empty mapping and the packet still validates. -/
theorem info_payload_validation_total_witness :
    normalize_info_payload (.pstr "not json" none) = [] ∧
    parse_obj_info (ParseEnv.mk "g" (PyFloat.ofInt 7))
        { ptype := some "info", from_ := some "B", to_ := some "broadcast",
          payload := some (.pstr "not json" none), msg_id := some "m7" } =
      some
        { proto := "lsr", ptype := "info", from_ := "B",
          to_ := normalize_to "broadcast", ttl := 5,
          headers := normalize_headers (.hlist []),
          payload := .pdict (normalize_info_payload (.pstr "not json" none)),
          msg_id := "m7", timestamp := PyFloat.ofInt 7, trace_id := none } := by
  have h := info_payload_validation_total (ParseEnv.mk "g" (PyFloat.ofInt 7))
    { ptype := some "info", from_ := some "B", to_ := some "broadcast",
      payload := some (.pstr "not json" none), msg_id := some "m7" }
    (.pstr "not json" none) "B" "broadcast" rfl (by decide) rfl (by decide) rfl
    (by decide) rfl
  exact ⟨h.1 rfl, h.2.1 rfl⟩

/-- Counterexample to C10 as stated: a numeric payload (neither dict nor
string) is not normalized into an accepted empty mapping — the packet fails
schema validation and is dropped, although the claim asserts it "still passes
schema validation". -/
theorem info_payload_validation_counterexample :
    lacks_expected_shape (.pnum (PyFloat.ofInt 42)) = true ∧
    parse_obj_info (ParseEnv.mk "g" (PyFloat.ofInt 7))
        { ptype := some "info", from_ := some "B", to_ := some "broadcast",
          payload := some (.pnum (PyFloat.ofInt 42)), msg_id := some "m7" } =
      none := ⟨rfl, rfl⟩

theorem parse_obj_info_inv (env : ParseEnv) (o : RawObj) (p : Packet) (v : PyVal)
    (hp : parse_obj_info env o = some p) (hpay : o.payload = some v) :
    p.ptype = "info" ∧ p.payload = .pdict (normalize_info_payload v) := by
  unfold parse_obj_info at hp
  rw [hpay] at hp
  repeat' split at hp
  all_goals try simp_all
  all_goals obtain ⟨-, -, rfl⟩ := hp
  all_goals exact ⟨rfl, rfl⟩

theorem handle_packet_on_info (ctx : FwdCtx) (seen : List String)
    (rt : List (String × String)) (p : Packet)
    (hsvc : ctx.has_on_info = true) (hty : p.ptype = "info")
    (hseen : p.msg_id ∉ seen) (hcyc : ctx.my_id ∉ p.headers) (httl : 0 < p.ttl) :
    (handle_packet ctx seen rt p).on_info = some (p.from_, p.payload) := by
  have h1 : ¬(p.msg_id ≠ "" ∧ p.msg_id ∈ seen) := fun h => hseen h.2
  have h2 : ¬ p.seen_cycle ctx.my_id = true := by
    simp [Packet.seen_cycle]
    exact hcyc
  have h3 : ¬(p.ttl ≤ 0 ∧ (p.ptype = "info" ∨ p.ptype = "message")) :=
    fun h => absurd h.1 (by omega)
  have h4 : ¬ p.ptype = "hello" := by rw [hty]; simp
  unfold handle_packet
  rw [if_neg h1, if_neg h2, if_neg h3, if_neg h4, if_pos hty]
  by_cases h5 : ((p.with_decremented_ttl).with_appended_hop ctx.my_id).ttl ≤ 0 <;>
    by_cases h6 : broadcast_channels ctx (prev_hop_exclude p) = [] <;>
      simp [on_info_effects, hsvc, h5, h6]

/-- **C1 (amended).** An inbound INFO packet whose payload lacks the expected
shape is not ignored: validation normalizes the payload to the empty mapping,
and a node with an attached LSR routing service that accepts the packet (not
a duplicate, no cycle, positive TTL) *replaces* the LSDB entry of the origin
with the empty mapping — the entry is emptied, not left unchanged. -/
theorem lsr_invalid_payload_empties_lsdb (env : ParseEnv) (o : RawObj) (v : PyVal)
    (st : State) (ctx : FwdCtx) (seen : List String) (p : Packet) (now : PyFloat)
    (hpay : o.payload = some v) (hshape : lacks_expected_shape v = true)
    (hparse : parse_obj_info env o = some p)
    (hsvc : ctx.has_on_info = true)
    (hseen : p.msg_id ∉ seen) (hcyc : ctx.my_id ∉ p.headers) (httl : 0 < p.ttl) :
    p.payload = .pdict [] ∧
    dget (process_info_with_lsr ctx seen st p now).lsdb p.from_ = some [] := by
  obtain ⟨hty, hpl⟩ := parse_obj_info_inv env o p v hparse hpay
  have hempty : normalize_info_payload v = [] := lacks_shape_normalizes_empty v hshape
  have hpl' : p.payload = .pdict [] := by rw [hpl, hempty]
  refine ⟨hpl', ?_⟩
  have hon := handle_packet_on_info ctx seen st.routing_table p hsvc hty hseen hcyc httl
  unfold process_info_with_lsr
  rw [hon]
  simp [lsr_on_info, State.update_lsdb, hpl', payload_to_links, dget_dset_self]

/-- Closed witness for the C1 theorem: an INFO from `B` carrying a non-JSON
string payload, processed at node `A` running LSR, leaves `lsdb[B] = {}`. -/
theorem lsr_invalid_payload_empties_lsdb_witness :
    (Packet.mk "lsr" "info" "B" "broadcast" 5 [] (.pdict []) "m9"
        (PyFloat.ofInt 0) none).payload = .pdict [] ∧
    dget (process_info_with_lsr (FwdCtx.mk "A" [("B", "chB")] "lsr" true) []
        (State.mk "A" [] [("B", [("C", PyFloat.ofInt 1)])] [] [] [] [])
        (Packet.mk "lsr" "info" "B" "broadcast" 5 [] (.pdict []) "m9"
          (PyFloat.ofInt 0) none) (PyFloat.ofInt 101)).lsdb "B" = some [] :=
  lsr_invalid_payload_empties_lsdb (ParseEnv.mk "g" (PyFloat.ofInt 0))
    { ptype := some "info", from_ := some "B", to_ := some "broadcast",
      ttl := some 5, payload := some (.pstr "not json" none), msg_id := some "m9" }
    (.pstr "not json" none)
    (State.mk "A" [] [("B", [("C", PyFloat.ofInt 1)])] [] [] [] [])
    (FwdCtx.mk "A" [("B", "chB")] "lsr" true) []
    (Packet.mk "lsr" "info" "B" "broadcast" 5 [] (.pdict []) "m9"
      (PyFloat.ofInt 0) none)
    (PyFloat.ofInt 101) rfl rfl rfl rfl (by decide) (by decide) (by decide)

/-- Counterexample to C1 as stated: at node `A` (LSR attached), origin `B`
previously announced `{C: 1}`; an INFO from `B` whose payload is the invalid
string `"not json"` is accepted and `lsdb[B]` becomes `{}` — the entry is
replaced and emptied, not left unchanged. -/
theorem lsr_invalid_payload_counterexample :
    lacks_expected_shape (.pstr "not json" none) = true ∧
    parse_obj_info (ParseEnv.mk "g" (PyFloat.ofInt 0))
        { ptype := some "info", from_ := some "B", to_ := some "broadcast",
          ttl := some 5, payload := some (.pstr "not json" none),
          msg_id := some "m9" } =
      some (Packet.mk "lsr" "info" "B" "broadcast" 5 [] (.pdict []) "m9"
        (PyFloat.ofInt 0) none) ∧
    dget (State.mk "A" [] [("B", [("C", PyFloat.ofInt 1)])] [] [] [] []).lsdb "B" =
      some [("C", PyFloat.ofInt 1)] ∧
    dget (process_info_with_lsr (FwdCtx.mk "A" [("B", "chB")] "lsr" true) []
        (State.mk "A" [] [("B", [("C", PyFloat.ofInt 1)])] [] [] [] [])
        (Packet.mk "lsr" "info" "B" "broadcast" 5 [] (.pdict []) "m9"
          (PyFloat.ofInt 0) none) (PyFloat.ofInt 101)).lsdb "B" = some [] ∧
    some ([] : List (String × PyFloat)) ≠ some [("C", PyFloat.ofInt 1)] :=
  ⟨rfl, rfl, rfl, rfl, by decide⟩

theorem dget_map_none_getD (ks : List String) (v : String) :
    ((dget (ks.map (fun n => (n, (none : Option String)))) v).getD none) = none := by
  induction ks with
  | nil => rfl
  | cons k rest ih =>
      by_cases h : k = v <;> simp [dget, h, ih]

theorem relax_edges_prev_ok (g : List (String × List (String × PyFloat)))
    (u : String) (visited : List (String × Bool))
    (edges : List (String × PyFloat))
    (dp : List (String × Option PyFloat) × List (String × Option String))
    (hsub : ∀ e, e ∈ edges → e ∈ dgetD g u [])
    (hok : ∀ x y, (dget dp.2 x).getD none = some y → ∃ w, (x, w) ∈ dgetD g y []) :
    ∀ x y, (dget (relax_edges u edges visited dp).2 x).getD none = some y →
      ∃ w, (x, w) ∈ dgetD g y [] := by
  induction edges generalizing dp with
  | nil => exact hok
  | cons e rest ih =>
      show ∀ x y,
        (dget (relax_edges u rest visited
            (if dgetD visited e.1 false then dp
             else
               if infLt (infAdd (iget dp.1 u) e.2) (iget dp.1 e.1) then
                 (dset dp.1 e.1 (infAdd (iget dp.1 u) e.2), dset dp.2 e.1 (some u))
               else dp)).2 x).getD none = some y → ∃ w, (x, w) ∈ dgetD g y []
      refine ih _ (fun e' he' => hsub e' (List.mem_cons_of_mem _ he')) ?_
      intro x y hxy
      by_cases hv : dgetD visited e.1 false
      · rw [if_pos hv] at hxy
        exact hok x y hxy
      · rw [if_neg hv] at hxy
        by_cases himp : infLt (infAdd (iget dp.1 u) e.2) (iget dp.1 e.1)
        · rw [if_pos himp] at hxy
          dsimp only at hxy
          by_cases hx : x = e.1
          · subst hx
            rw [dget_dset_self] at hxy
            simp at hxy
            subst hxy
            exact ⟨e.2, hsub e (List.mem_cons_self _ _)⟩
          · rw [dget_dset_ne _ _ _ _ hx] at hxy
            exact hok x y hxy
        · rw [if_neg himp] at hxy
          exact hok x y hxy

theorem dijkstra_loop_prev_ok (g : List (String × List (String × PyFloat)))
    (ks : List String) (fuel : Nat) (s : DijkstraSt)
    (hok : ∀ x y, (dget s.prev x).getD none = some y → ∃ w, (x, w) ∈ dgetD g y []) :
    ∀ x y, (dget (dijkstra_loop g ks fuel s).prev x).getD none = some y →
      ∃ w, (x, w) ∈ dgetD g y [] := by
  induction fuel generalizing s with
  | zero => exact hok
  | succ n ih =>
      unfold dijkstra_loop
      cases hpick : pick_min_node ks s.dist s.visited with
      | none => exact hok
      | some u =>
          apply ih
          exact relax_edges_prev_ok g u (dset s.visited u true) (dgetD g u [])
            (s.dist, s.prev) (fun e he => he) hok

theorem walk_to_first_hop_prev (prev : List (String × Option String)) (src : String)
    (fuel : Nat) (cur nh : String)
    (h : walk_to_first_hop prev src fuel cur = some nh) :
    (dget prev nh).getD none = some src := by
  induction fuel generalizing cur with
  | zero => simp [walk_to_first_hop] at h
  | succ n ih =>
      unfold walk_to_first_hop at h
      cases hc : (dget prev cur).getD none with
      | none => rw [hc] at h; cases h
      | some p =>
          rw [hc] at h
          dsimp only at h
          by_cases hp : p = src
          · rw [if_pos hp] at h
            cases h
            rw [hc, hp]
          · rw [if_neg hp] at h
            exact ih _ h

theorem table_foldl_ok (dist : List (String × Option PyFloat))
    (prev : List (String × Option String)) (src : String) (fuel : Nat)
    (ks : List String) (tbl : List (String × String))
    (h1 : ∀ d n, dget tbl d = some n → (dget prev n).getD none = some src)
    (h2 : dget tbl src = none) :
    (∀ d n, dget (ks.foldl (table_step dist prev src fuel) tbl) d = some n →
      (dget prev n).getD none = some src) ∧
    dget (ks.foldl (table_step dist prev src fuel) tbl) src = none := by
  induction ks generalizing tbl with
  | nil => exact ⟨h1, h2⟩
  | cons dst rest ih =>
      rw [List.foldl_cons]
      refine ih (table_step dist prev src fuel tbl dst) ?_ ?_
      · intro d n hdn
        unfold table_step at hdn
        split at hdn
        · exact h1 d n hdn
        · split at hdn
          · exact h1 d n hdn
          · split at hdn
            next nh heq =>
              by_cases hd : d = dst
              · subst hd
                rw [dget_dset_self] at hdn
                injection hdn with hval
                subst hval
                exact walk_to_first_hop_prev prev src fuel d nh heq
              · rw [dget_dset_ne _ _ _ _ hd] at hdn
                exact h1 d n hdn
            next => exact h1 d n hdn
      · unfold table_step
        split
        next => exact h2
        next hne =>
          split
          · exact h2
          · split
            next nh heq =>
              rw [dget_dset_ne _ _ _ _ (fun hh => hne hh.symm)]
              exact h2
            next => exact h2

theorem dijkstra_table_ok (g : List (String × List (String × PyFloat)))
    (src : String) :
    (∀ dst nh, dget (dijkstra_table_and_costs g src).1 dst = some nh →
      ∃ w, (nh, w) ∈ dgetD g src []) ∧
    dget (dijkstra_table_and_costs g src).1 src = none := by
  have hinit : ∀ x y,
      (dget ((dkeys g).map (fun n => (n, (none : Option String)))) x).getD none =
        some y → ∃ w, (x, w) ∈ dgetD g y [] := by
    intro x y hxy
    rw [dget_map_none_getD] at hxy
    cases hxy
  have hloop := dijkstra_loop_prev_ok g (dkeys g) ((dkeys g).length)
    { dist := dset ((dkeys g).map (fun n => (n, (none : Option PyFloat)))) src
        (some (PyFloat.ofInt 0))
      prev := (dkeys g).map (fun n => (n, (none : Option String)))
      visited := (dkeys g).map (fun n => (n, false)) } hinit
  have htab := table_foldl_ok
    (dijkstra_loop g (dkeys g) ((dkeys g).length)
      { dist := dset ((dkeys g).map (fun n => (n, (none : Option PyFloat)))) src
          (some (PyFloat.ofInt 0))
        prev := (dkeys g).map (fun n => (n, (none : Option String)))
        visited := (dkeys g).map (fun n => (n, false)) }).dist
    (dijkstra_loop g (dkeys g) ((dkeys g).length)
      { dist := dset ((dkeys g).map (fun n => (n, (none : Option PyFloat)))) src
          (some (PyFloat.ofInt 0))
        prev := (dkeys g).map (fun n => (n, (none : Option String)))
        visited := (dkeys g).map (fun n => (n, false)) }).prev
    src ((dkeys g).length + 1) (dkeys g) []
    (by intro d n hdn; simp [dget] at hdn) rfl
  exact ⟨fun dst nh h => hloop nh src (htab.1 dst nh h), htab.2⟩

/-- **C3 (amended).** After an LSR recomputation, every routing-table entry
`(dst, nh)` has a next hop that is adjacent *to this node in the graph built
by `build_graph`* — which, through the undirected closure of third-party LSDB
claims, may contain nodes that are not direct neighbors — and the node's own
id is never a key of the table.  (The original claim — `nh` is an immediate
direct neighbor, or `dst = nh` for a neighbor — fails on the code; see the
counterexample.) -/
theorem next_hop_graph_adjacent (st : State) (now hello_timeout : PyFloat)
    (dst nh : String) :
    (dget (recompute_routes st now hello_timeout).routing_table dst = some nh →
      ∃ w, (nh, w) ∈ dgetD (dsetdefault (st.build_graph now (some hello_timeout))
        st.node_id []) st.node_id []) ∧
    dget (recompute_routes st now hello_timeout).routing_table st.node_id = none := by
  have h := dijkstra_table_ok
    (dsetdefault (st.build_graph now (some hello_timeout)) st.node_id []) st.node_id
  exact ⟨fun hh => h.1 dst nh hh, h.2⟩

/-- Closed witness for the C3 theorem at a concrete state (node `A`, alive
neighbor `Y`, a third-party LSDB claim `X: {A:1, Y:1}`). -/
theorem next_hop_graph_adjacent_witness :
    (∃ w, ("X", w) ∈ dgetD (dsetdefault
        ((State.mk "A" [("Y", ⟨PyFloat.ofInt 5, PyFloat.ofInt 100⟩)]
          [("A", [("Y", PyFloat.ofInt 5)]),
           ("X", [("A", PyFloat.ofInt 1), ("Y", PyFloat.ofInt 1)])]
          [] [] [] []).build_graph (PyFloat.ofInt 100) (some (PyFloat.ofInt 20)))
        "A" []) "A" []) ∧
    dget (recompute_routes
        (State.mk "A" [("Y", ⟨PyFloat.ofInt 5, PyFloat.ofInt 100⟩)]
          [("A", [("Y", PyFloat.ofInt 5)]),
           ("X", [("A", PyFloat.ofInt 1), ("Y", PyFloat.ofInt 1)])]
          [] [] [] []) (PyFloat.ofInt 100) (PyFloat.ofInt 20)).routing_table "A" =
      none := by
  have h := next_hop_graph_adjacent
    (State.mk "A" [("Y", ⟨PyFloat.ofInt 5, PyFloat.ofInt 100⟩)]
      [("A", [("Y", PyFloat.ofInt 5)]),
       ("X", [("A", PyFloat.ofInt 1), ("Y", PyFloat.ofInt 1)])]
      [] [] [] []) (PyFloat.ofInt 100) (PyFloat.ofInt 20) "Y" "X"
  exact ⟨h.1 rfl, h.2⟩

/-- Counterexample to C3 as stated: at node `A` whose only direct neighbor is
`Y`, a third-party LSDB entry `X: {A:1, Y:1}` (symmetrized by `build_graph`)
makes Dijkstra route `Y` via `X` — but `X` is not a direct neighbor of `A`
and `Y ≠ X`, violating next-hop locality. -/
theorem next_hop_locality_counterexample :
    dget (recompute_routes
        (State.mk "A" [("Y", ⟨PyFloat.ofInt 5, PyFloat.ofInt 100⟩)]
          [("A", [("Y", PyFloat.ofInt 5)]),
           ("X", [("A", PyFloat.ofInt 1), ("Y", PyFloat.ofInt 1)])]
          [] [] [] []) (PyFloat.ofInt 100) (PyFloat.ofInt 20)).routing_table "Y" =
      some "X" ∧
    dget (State.mk "A" [("Y", ⟨PyFloat.ofInt 5, PyFloat.ofInt 100⟩)]
        [("A", [("Y", PyFloat.ofInt 5)]),
         ("X", [("A", PyFloat.ofInt 1), ("Y", PyFloat.ofInt 1)])]
        [] [] [] []).neighbors "X" = none ∧
    ("Y" : String) ≠ "X" :=
  ⟨rfl, rfl, by decide⟩
